import Mathlib

/-!
Verification of giffs.py, a FUSE filesystem with two personalities.

Forward mode (class GIFFS) stores each file as FILE_HEADER ++ content on
disk and exposes only the content; reverse mode (class GIFFSReverse)
stores plain content and synthesizes FILE_HEADER ++ content on read.

Backing files are modelled as lists of byte values (List Nat).  The
system-call primitives used by the driver (os.read after os.lseek,
os.write after os.lseek, file.truncate) are modelled at the byte level,
including CPython behaviour of os.read on a negative count, which raises
OSError with errno EINVAL before touching the descriptor.
-/

/-- Byte values of the constant GIF header written or synthesized by the
driver: the 35 bytes obtained by base64-decoding
R0lGODlhAQABAIAAAAUEBAAAACwAAAAAAQABAAACAkQBADs= (giffs.py line 18). -/
def FILE_HEADER : List Nat :=
  [71, 73, 70, 56, 57, 97, 1, 0, 1, 0, 128, 0, 0, 5, 4, 4, 0, 0, 0,
   44, 0, 0, 0, 0, 1, 0, 1, 0, 0, 2, 2, 68, 1, 0, 59]

/-- Errors surfaced by the modelled system calls and the operation
dispatcher. -/
inductive FSError where
  | invalidArgument
  | notSupported
  deriving DecidableEq, Repr

/-- Bytes returned by os.read(fh, count) when the descriptor is positioned
at pos: the slice file[pos : pos + count].  CPython rejects a negative
count with OSError errno 22 (EINVAL) before performing any transfer. -/
def osRead (file : List Nat) (pos : Nat) (count : Int) :
    Except FSError (List Nat) :=
  if count < 0 then Except.error FSError.invalidArgument
  else Except.ok ((file.drop pos).take count.toNat)

/-- Backing bytes after os.write(fh, data) with the descriptor positioned
at pos; a position past the end of the file zero-fills the gap. -/
def osWrite (file : List Nat) (pos : Nat) (data : List Nat) : List Nat :=
  file.take pos ++ List.replicate (pos - file.length) 0 ++ data
    ++ file.drop (pos + data.length)

/-- Backing bytes after file.truncate(n): keep the first n bytes,
zero-extend when the file is shorter than n. -/
def ftruncate (file : List Nat) (n : Nat) : List Nat :=
  file.take n ++ List.replicate (n - file.length) 0

/-- Backing bytes of a file freshly made by GIFFS.create (giffs.py lines
35-38): os.open with O_RDWR, O_CREAT and O_TRUNC yields an empty file,
then os.write(fh, FILE_HEADER) makes the header its entire content. -/
def GIFFS.create : List Nat := osWrite [] 0 FILE_HEADER

/-- GIFFS.read (giffs.py lines 67-70): holding the lock, lseek the backing
descriptor to offset + len(FILE_HEADER) and os.read size bytes. -/
def GIFFS.read (file : List Nat) (size offset : Nat) :
    Except FSError (List Nat) :=
  osRead file (offset + FILE_HEADER.length) (size : Int)

/-- GIFFS.write (giffs.py lines 102-105): holding the lock, lseek the
backing descriptor to offset + len(FILE_HEADER) and os.write data;
result is the new backing bytes. -/
def GIFFS.write (file : List Nat) (data : List Nat) (offset : Nat) :
    List Nat :=
  osWrite file (offset + FILE_HEADER.length) data

/-- GIFFS.truncate (giffs.py lines 95-97): truncate the backing file to
length + len(FILE_HEADER) bytes. -/
def GIFFS.truncate (file : List Nat) (length : Nat) : List Nat :=
  ftruncate file (length + FILE_HEADER.length)

/-- The stat fields both getattr implementations copy out of os.lstat
(giffs.py lines 49-55 and 120-126).  st_size is an integer: Python
subtraction may drive it negative. -/
structure Stat where
  st_atime : Nat
  st_ctime : Nat
  st_gid : Nat
  st_mode : Nat
  st_mtime : Nat
  st_nlink : Nat
  st_size : Int
  st_uid : Nat
  deriving DecidableEq, Repr

/-- GIFFS.getattr: subtract len(FILE_HEADER) from st_size when the path is
a regular file; every other field passes through unchanged. -/
def GIFFS.getattr (st : Stat) (isfile : Bool) : Stat :=
  if isfile then { st with st_size := st.st_size - FILE_HEADER.length }
  else st

/-- GIFFSReverse.getattr: add len(FILE_HEADER) to st_size when the path is
a regular file; every other field passes through unchanged. -/
def GIFFSReverse.getattr (st : Stat) (isfile : Bool) : Stat :=
  if isfile then { st with st_size := st.st_size + FILE_HEADER.length }
  else st

/-- GIFFSReverse.read (giffs.py lines 130-141).  For offset less than
len(FILE_HEADER): take FILE_HEADER[offset : offset + size], then — with
the lock held, unconditionally, exactly as the code does — lseek the
backing descriptor to 0 and os.read(size - (len(FILE_HEADER) - offset))
bytes and append them; that count is negative whenever the request ends
inside the header, making os.read raise EINVAL.  For offset at or past
len(FILE_HEADER): lseek to offset - len(FILE_HEADER) and os.read size
bytes. -/
def GIFFSReverse.read (file : List Nat) (size offset : Nat) :
    Except FSError (List Nat) :=
  if offset < FILE_HEADER.length then
    (osRead file 0
        ((size : Int) - ((FILE_HEADER.length : Int) - (offset : Int)))).map
      (fun rest => (FILE_HEADER.drop offset).take size ++ rest)
  else
    osRead file (offset - FILE_HEADER.length) size

/-- Operations a caller can invoke on the Reverse personality that the
claims mention. -/
inductive RevOp where
  | create (mode : Nat)
  | write (data : List Nat) (offset : Nat)
  | truncate (n : Nat)
  | chmod (mode : Nat)
  | read (size offset : Nat)
  deriving DecidableEq, Repr

/-- Result of dispatching one operation on the Reverse personality. -/
inductive RevResult where
  | bytes (bs : List Nat)
  deriving DecidableEq, Repr

/-- Dispatch of one operation on class GIFFSReverse, paired with the
backing bytes afterwards.  The class body (giffs.py lines 108-157)
defines read but none of create, write, truncate, chmod.  Modelled from
the spec: the operation dispatcher that handles calls a personality
leaves undefined is external to src; per the spec such a call must fail
with a not-supported error rather than touch the backing store.  The
read path performs only os.lseek and os.read, so it returns the backing
bytes unchanged. -/
def GIFFSReverse.dispatch (file : List Nat) (op : RevOp) :
    Except FSError RevResult × List Nat :=
  match op with
  | RevOp.read size offset =>
      ((GIFFSReverse.read file size offset).map RevResult.bytes, file)
  | RevOp.create _ => (Except.error FSError.notSupported, file)
  | RevOp.write _ _ => (Except.error FSError.notSupported, file)
  | RevOp.truncate _ => (Except.error FSError.notSupported, file)
  | RevOp.chmod _ => (Except.error FSError.notSupported, file)

/-- State of two concurrent read or write calls that share one backing
descriptor and the per-instance lock self.rwlock (giffs.py lines 23,
68-70, 103-105): the lock holder (false for call 0, true for call 1),
the descriptor file position, each call program counter (0 before
acquire, 1 lock acquired, 2 lseek done, 3 transfer done, 4 lock
released), and the position at which each call performed its transfer. -/
structure ConcState where
  lock : Option Bool
  pos : Nat
  pc0 : Nat
  pc1 : Nat
  obs0 : Option Nat
  obs1 : Option Nat
  deriving DecidableEq, Repr

/-- State before either call starts: lock free, no transfer recorded. -/
def initState : ConcState :=
  { lock := none, pos := 0, pc0 := 0, pc1 := 0, obs0 := none, obs1 := none }

/-- Interleaving semantics of two GIFFS.read or GIFFS.write calls with
view offsets off0 and off1 on the same mount instance.  Each call
executes in order: acquire self.rwlock (only possible while no one holds
it), os.lseek to its view offset plus len(FILE_HEADER), transfer
(os.read or os.write) at the current descriptor position, release the
lock when the with-block exits.  Steps of the two calls interleave
arbitrarily. -/
inductive Step (off0 off1 : Nat) : ConcState → ConcState → Prop where
  | acquire0 {s : ConcState} : s.pc0 = 0 → s.lock = none →
      Step off0 off1 s { s with lock := some false, pc0 := 1 }
  | seek0 {s : ConcState} : s.pc0 = 1 →
      Step off0 off1 s { s with pos := off0 + FILE_HEADER.length, pc0 := 2 }
  | transfer0 {s : ConcState} : s.pc0 = 2 →
      Step off0 off1 s { s with obs0 := some s.pos, pc0 := 3 }
  | release0 {s : ConcState} : s.pc0 = 3 →
      Step off0 off1 s { s with lock := none, pc0 := 4 }
  | acquire1 {s : ConcState} : s.pc1 = 0 → s.lock = none →
      Step off0 off1 s { s with lock := some true, pc1 := 1 }
  | seek1 {s : ConcState} : s.pc1 = 1 →
      Step off0 off1 s { s with pos := off1 + FILE_HEADER.length, pc1 := 2 }
  | transfer1 {s : ConcState} : s.pc1 = 2 →
      Step off0 off1 s { s with obs1 := some s.pos, pc1 := 3 }
  | release1 {s : ConcState} : s.pc1 = 3 →
      Step off0 off1 s { s with lock := none, pc1 := 4 }

/-- States reachable by interleaving the two calls from initState. -/
inductive Reachable (off0 off1 : Nat) : ConcState → Prop where
  | init : Reachable off0 off1 initState
  | step {s t : ConcState} : Reachable off0 off1 s → Step off0 off1 s t →
      Reachable off0 off1 t

/-- Inductive invariant of the interleaved execution: a call between
acquire and release holds the lock, a call that has seeked but not yet
transferred sees the position its own seek set, and every recorded
transfer happened at the position set by the same call. -/
def LockInv (off0 off1 : Nat) (s : ConcState) : Prop :=
  (1 ≤ s.pc0 ∧ s.pc0 ≤ 3 → s.lock = some false) ∧
  (1 ≤ s.pc1 ∧ s.pc1 ≤ 3 → s.lock = some true) ∧
  (s.pc0 = 2 → s.pos = off0 + FILE_HEADER.length) ∧
  (s.pc1 = 2 → s.pos = off1 + FILE_HEADER.length) ∧
  (∀ q, s.obs0 = some q → q = off0 + FILE_HEADER.length) ∧
  (∀ q, s.obs1 = some q → q = off1 + FILE_HEADER.length)

/-- Stat record used to instantiate the getattr theorems at a concrete
regular backing file of size 100. -/
def statW : Stat :=
  { st_atime := 1, st_ctime := 2, st_gid := 3, st_mode := 4,
    st_mtime := 5, st_nlink := 6, st_size := 100, st_uid := 7 }

/-- Stat record of a regular backing file of size 0, smaller than the
signature length. -/
def statZero : Stat :=
  { st_atime := 0, st_ctime := 0, st_gid := 0, st_mode := 0,
    st_mtime := 0, st_nlink := 1, st_size := 0, st_uid := 0 }

/-- Final state of the concrete interleaving in which call 0 (view offset
5) runs to completion and then call 1 (view offset 7) runs to
completion. -/
def concW : ConcState :=
  { lock := none, pos := 42, pc0 := 4, pc1 := 4,
    obs0 := some 40, obs1 := some 42 }

theorem FILE_HEADER_length : FILE_HEADER.length = 35 := rfl

/-- Claim C1: forward round trip.  Creating a file writes FILE_HEADER as
its initial content; writing content at view offset 0 makes the backing
file exactly FILE_HEADER ++ content; reading len(content) bytes from view
offset 0 then returns exactly content. -/
theorem forward_roundtrip (content : List Nat) :
    GIFFS.write GIFFS.create content 0 = FILE_HEADER ++ content ∧
    GIFFS.read (GIFFS.write GIFFS.create content 0) content.length 0 =
      Except.ok content := by
  have hcreate : GIFFS.create = FILE_HEADER := rfl
  have hback : GIFFS.write GIFFS.create content 0 = FILE_HEADER ++ content := by
    rw [hcreate]
    unfold GIFFS.write osWrite
    rw [Nat.zero_add, List.take_length, Nat.sub_self, List.replicate_zero,
      List.drop_eq_nil_of_le (by simp)]
    simp
  refine ⟨hback, ?_⟩
  rw [hback]
  unfold GIFFS.read osRead
  rw [if_neg (by simp), Nat.zero_add, Int.toNat_natCast,
    List.drop_left, List.take_length]

/-- Claim C2: reverse round trip.  With the backing file holding content,
a reverse-mode read of len(FILE_HEADER) + len(content) bytes from view
offset 0 returns exactly FILE_HEADER ++ content, and the backing bytes
are unchanged by the read. -/
theorem reverse_roundtrip (content : List Nat) :
    GIFFSReverse.dispatch content
        (RevOp.read (FILE_HEADER.length + content.length) 0) =
      (Except.ok (RevResult.bytes (FILE_HEADER ++ content)), content) := by
  have hread : GIFFSReverse.read content (FILE_HEADER.length + content.length) 0 =
      Except.ok (FILE_HEADER ++ content) := by
    rw [GIFFSReverse.read, if_pos (by simp [FILE_HEADER_length])]
    have hcount : ((FILE_HEADER.length + content.length : Nat) : Int) -
        ((FILE_HEADER.length : Int) - ((0 : Nat) : Int)) =
        (content.length : Int) := by push_cast; ring
    rw [hcount]
    unfold osRead
    rw [if_neg (by simp), Int.toNat_natCast]
    simp [Except.map, List.take_of_length_le]
  show ((GIFFSReverse.read content (FILE_HEADER.length + content.length) 0).map
      RevResult.bytes, content) =
    (Except.ok (RevResult.bytes (FILE_HEADER ++ content)), content)
  rw [hread]
  rfl

/-- Claim C3: size adjustment.  For a regular backing file, forward
getattr with backing size at least len(FILE_HEADER) reports backing size
minus len(FILE_HEADER), reverse getattr with nonnegative backing size
reports backing size plus len(FILE_HEADER), and in both modes every
other stat field is taken from the backing stat unchanged. -/
theorem size_adjustment (st : Stat) :
    ((FILE_HEADER.length : Int) ≤ st.st_size →
      GIFFS.getattr st true =
        { st with st_size := st.st_size - FILE_HEADER.length }) ∧
    (0 ≤ st.st_size →
      GIFFSReverse.getattr st true =
        { st with st_size := st.st_size + FILE_HEADER.length }) := by
  constructor <;> intro h <;> rfl

/-- Witness for size_adjustment at the concrete regular file statW of
backing size 100: forward reports 65 and reverse reports 135. -/
theorem size_adjustment_witness :
    ((FILE_HEADER.length : Int) ≤ statW.st_size ∧
      GIFFS.getattr statW true = { statW with st_size := 65 }) ∧
    ((0 : Int) ≤ statW.st_size ∧
      GIFFSReverse.getattr statW true = { statW with st_size := 135 }) := by
  refine ⟨⟨by decide, ?_⟩, ⟨by decide, ?_⟩⟩
  · rw [(size_adjustment statW).1 (by decide)]; decide
  · rw [(size_adjustment statW).2 (by decide)]; decide

/-- Claim C4 counterexample: forward getattr on a regular backing file of
size 0 (smaller than len(FILE_HEADER)) reports st_size equal to -35,
which is negative, so the reported size is not always nonnegative. -/
theorem getattr_nonneg_counterexample :
    (GIFFS.getattr statZero true).st_size = -35 ∧
    ¬ (0 ≤ (GIFFS.getattr statZero true).st_size) := by decide

/-- Claim C4 amended: the reported size is nonnegative exactly on
protocol-conforming backing files — forward getattr reports a
nonnegative size whenever the backing size is at least
len(FILE_HEADER), reverse getattr reports a nonnegative size whenever
the backing size is nonnegative, and forward getattr on a regular
backing file smaller than len(FILE_HEADER) reports a negative size. -/
theorem getattr_nonneg_amended (st : Stat) :
    ((FILE_HEADER.length : Int) ≤ st.st_size →
      0 ≤ (GIFFS.getattr st true).st_size) ∧
    (0 ≤ st.st_size → 0 ≤ (GIFFSReverse.getattr st true).st_size) ∧
    (st.st_size < (FILE_HEADER.length : Int) →
      (GIFFS.getattr st true).st_size < 0) := by
  have hf : (GIFFS.getattr st true).st_size =
      st.st_size - FILE_HEADER.length := rfl
  have hr : (GIFFSReverse.getattr st true).st_size =
      st.st_size + FILE_HEADER.length := rfl
  rw [hf, hr]
  refine ⟨?_, ?_, ?_⟩ <;> intro h <;> omega

/-- Witness for getattr_nonneg_amended at statW (backing size 100): both
adjusted sizes are nonnegative. -/
theorem getattr_nonneg_amended_witness :
    ((FILE_HEADER.length : Int) ≤ statW.st_size ∧
      0 ≤ (GIFFS.getattr statW true).st_size) ∧
    ((0 : Int) ≤ statW.st_size ∧
      0 ≤ (GIFFSReverse.getattr statW true).st_size) :=
  ⟨⟨by decide, (getattr_nonneg_amended statW).1 (by decide)⟩,
    ⟨by decide, (getattr_nonneg_amended statW).2.1 (by decide)⟩⟩

/-- Claim C5, evaluated at the failing input: a reverse-mode read of 1
byte at view offset 0 — a request lying entirely inside the signature —
does not return FILE_HEADER[0:1]; the code reaches
os.read(fh, 1 - (35 - 0)) whose negative count raises OSError EINVAL,
so the whole read fails, on any backing file (here bytes [7, 8, 9]). -/
theorem reverse_read_inside_signature_bug :
    GIFFSReverse.read [7, 8, 9] 1 0 =
      Except.error FSError.invalidArgument := rfl

/-- Claim C6: boundary splice.  A reverse-mode read at view offset
len(FILE_HEADER) - 1 of length 3, over a backing file starting with
bytes x and y, returns the last signature byte FILE_HEADER[L-1:L]
followed by x and y. -/
theorem boundary_splice (x y : Nat) (rest : List Nat) :
    GIFFSReverse.read (x :: y :: rest) 3 (FILE_HEADER.length - 1) =
      Except.ok
        ((FILE_HEADER.drop (FILE_HEADER.length - 1)).take 1 ++ [x, y]) := rfl

/-- Claim C7: truncate preserves the signature.  On a backing file
FILE_HEADER ++ content, a forward truncate to view length 0 leaves
exactly FILE_HEADER (so the backing size is len(FILE_HEADER) and the
file still begins with the signature), a subsequent forward read of
len(FILE_HEADER) bytes at view offset 0 returns no bytes, and in
general a forward truncate to view length t makes the backing size
t + len(FILE_HEADER). -/
theorem truncate_preserves_signature (content : List Nat) (t : Nat) :
    GIFFS.truncate (FILE_HEADER ++ content) 0 = FILE_HEADER ∧
    GIFFS.read (GIFFS.truncate (FILE_HEADER ++ content) 0)
        FILE_HEADER.length 0 = Except.ok [] ∧
    (GIFFS.truncate (FILE_HEADER ++ content) t).length =
      t + FILE_HEADER.length := by
  have h0 : GIFFS.truncate (FILE_HEADER ++ content) 0 = FILE_HEADER := by
    unfold GIFFS.truncate ftruncate
    rw [Nat.zero_add, List.take_left]
    simp
  refine ⟨h0, ?_, ?_⟩
  · rw [h0]
    unfold GIFFS.read osRead
    rw [if_neg (by simp), Nat.zero_add, List.drop_length]
    rfl
  · unfold GIFFS.truncate ftruncate
    simp only [List.length_append, List.length_take, List.length_replicate]
    omega

/-- Claim C8: unsupported reverse mutation.  Dispatching create, write,
truncate or chmod on the Reverse personality fails with the
not-supported error and returns the backing bytes unchanged. -/
theorem reverse_mutation_not_supported (file data : List Nat)
    (offset n m : Nat) :
    GIFFSReverse.dispatch file (RevOp.create m) =
      (Except.error FSError.notSupported, file) ∧
    GIFFSReverse.dispatch file (RevOp.write data offset) =
      (Except.error FSError.notSupported, file) ∧
    GIFFSReverse.dispatch file (RevOp.truncate n) =
      (Except.error FSError.notSupported, file) ∧
    GIFFSReverse.dispatch file (RevOp.chmod m) =
      (Except.error FSError.notSupported, file) :=
  ⟨rfl, rfl, rfl, rfl⟩

/-- Claim C9: the signature is unforgeable through the forward view.  On
a backing file at least len(FILE_HEADER) bytes long, every forward
write (backing position offset + len(FILE_HEADER)) and every forward
truncate (backing length t + len(FILE_HEADER)) leaves the first
len(FILE_HEADER) backing bytes unchanged. -/
theorem signature_unforgeable (b data : List Nat) (offset t : Nat)
    (hb : FILE_HEADER.length ≤ b.length) :
    (GIFFS.write b data offset).take FILE_HEADER.length =
      b.take FILE_HEADER.length ∧
    (GIFFS.truncate b t).take FILE_HEADER.length =
      b.take FILE_HEADER.length := by
  constructor
  · unfold GIFFS.write osWrite
    rw [List.take_append_of_le_length (by
        simp only [List.length_append, List.length_take,
          List.length_replicate]
        omega),
      List.take_append_of_le_length (by
        simp only [List.length_append, List.length_take,
          List.length_replicate]
        omega),
      List.take_append_of_le_length (by rw [List.length_take]; omega),
      List.take_take, Nat.min_eq_left (by omega)]
  · unfold GIFFS.truncate ftruncate
    rw [List.take_append_of_le_length (by rw [List.length_take]; omega),
      List.take_take, Nat.min_eq_left (by omega)]

/-- Witness for signature_unforgeable: backing file FILE_HEADER itself,
writing two bytes at view offset 0 and truncating to view length 0. -/
theorem signature_unforgeable_witness :
    FILE_HEADER.length ≤ FILE_HEADER.length ∧
    (GIFFS.write FILE_HEADER [1, 2] 0).take FILE_HEADER.length =
      FILE_HEADER.take FILE_HEADER.length ∧
    (GIFFS.truncate FILE_HEADER 0).take FILE_HEADER.length =
      FILE_HEADER.take FILE_HEADER.length :=
  ⟨le_refl _,
    (signature_unforgeable FILE_HEADER [1, 2] 0 0 (le_refl _)).1,
    (signature_unforgeable FILE_HEADER [1, 2] 0 0 (le_refl _)).2⟩

theorem lockInv_init (off0 off1 : Nat) : LockInv off0 off1 initState := by
  refine ⟨?_, ?_, ?_, ?_, ?_, ?_⟩ <;> simp [initState]

theorem lockInv_step {off0 off1 : Nat} {s t : ConcState}
    (hinv : LockInv off0 off1 s) (hstep : Step off0 off1 s t) :
    LockInv off0 off1 t := by
  obtain ⟨h1, h2, h3, h4, h5, h6⟩ := hinv
  cases hstep with
  | acquire0 hpc hlock =>
      refine ⟨fun _ => rfl, fun hp => ?_, fun hp => ?_,
        fun hp => h4 hp, h5, h6⟩
      · have hx := h2 hp
        rw [hlock] at hx
        exact absurd hx (by simp)
      · have hp2 : (1 : Nat) = 2 := hp
        exact absurd hp2 (by omega)
  | seek0 hpc =>
      refine ⟨fun _ => h1 (by omega), fun hp => h2 hp, fun _ => rfl,
        fun hp => ?_, h5, h6⟩
      have hp2 : s.pc1 = 2 := hp
      have hx := h2 ⟨by omega, by omega⟩
      have hy := h1 (by omega)
      rw [hy] at hx
      exact absurd hx (by simp)
  | transfer0 hpc =>
      refine ⟨fun _ => h1 (by omega), fun hp => h2 hp, fun hp => ?_,
        fun hp => h4 hp, fun q hq => ?_, h6⟩
      · have hp2 : (3 : Nat) = 2 := hp
        exact absurd hp2 (by omega)
      · have hq2 : some s.pos = some q := hq
        exact (Option.some_inj.mp hq2) ▸ h3 hpc
  | release0 hpc =>
      refine ⟨fun hp => ?_, fun hp => ?_, fun hp => ?_,
        fun hp => h4 hp, h5, h6⟩
      · have hp2 : 1 ≤ (4 : Nat) ∧ (4 : Nat) ≤ 3 := hp
        exact absurd hp2.2 (by omega)
      · have hx := h2 hp
        have hy := h1 (by omega)
        rw [hy] at hx
        exact absurd hx (by simp)
      · have hp2 : (4 : Nat) = 2 := hp
        exact absurd hp2 (by omega)
  | acquire1 hpc hlock =>
      refine ⟨fun hp => ?_, fun _ => rfl, fun hp => h3 hp,
        fun hp => ?_, h5, h6⟩
      · have hx := h1 hp
        rw [hlock] at hx
        exact absurd hx (by simp)
      · have hp2 : (1 : Nat) = 2 := hp
        exact absurd hp2 (by omega)
  | seek1 hpc =>
      refine ⟨fun hp => h1 hp, fun _ => h2 (by omega), fun hp => ?_,
        fun _ => rfl, h5, h6⟩
      have hp2 : s.pc0 = 2 := hp
      have hx := h1 ⟨by omega, by omega⟩
      have hy := h2 (by omega)
      rw [hy] at hx
      exact absurd hx (by simp)
  | transfer1 hpc =>
      refine ⟨fun hp => h1 hp, fun _ => h2 (by omega), fun hp => h3 hp,
        fun hp => ?_, h5, fun q hq => ?_⟩
      · have hp2 : (3 : Nat) = 2 := hp
        exact absurd hp2 (by omega)
      · have hq2 : some s.pos = some q := hq
        exact (Option.some_inj.mp hq2) ▸ h4 hpc
  | release1 hpc =>
      refine ⟨fun hp => ?_, fun hp => ?_, fun hp => h3 hp,
        fun hp => ?_, h5, h6⟩
      · have hx := h1 hp
        have hy := h2 (by omega)
        rw [hy] at hx
        exact absurd hx (by simp)
      · have hp2 : 1 ≤ (4 : Nat) ∧ (4 : Nat) ≤ 3 := hp
        exact absurd hp2.2 (by omega)
      · have hp2 : (4 : Nat) = 2 := hp
        exact absurd hp2 (by omega)

/-- Claim C10: seek-then-transfer atomicity.  In every state reachable by
interleaving two read or write calls on the same mount instance, each
recorded transfer happened at the backing position set by that call's
own seek (its view offset plus len(FILE_HEADER)), never at a position
set by the other call. -/
theorem seek_transfer_atomic (off0 off1 : Nat) (s : ConcState)
    (h : Reachable off0 off1 s) :
    (∀ q, s.obs0 = some q → q = off0 + FILE_HEADER.length) ∧
    (∀ q, s.obs1 = some q → q = off1 + FILE_HEADER.length) := by
  have hinv : LockInv off0 off1 s := by
    induction h with
    | init => exact lockInv_init off0 off1
    | step hr hs ih => exact lockInv_step ih hs
  exact ⟨hinv.2.2.2.2.1, hinv.2.2.2.2.2⟩

theorem concW_reachable : Reachable 5 7 concW := by
  have h0 : Reachable 5 7 initState := Reachable.init
  have h1 := Reachable.step h0 (Step.acquire0 rfl rfl)
  have h2 := Reachable.step h1 (Step.seek0 rfl)
  have h3 := Reachable.step h2 (Step.transfer0 rfl)
  have h4 := Reachable.step h3 (Step.release0 rfl)
  have h5 := Reachable.step h4 (Step.acquire1 rfl rfl)
  have h6 := Reachable.step h5 (Step.seek1 rfl)
  have h7 := Reachable.step h6 (Step.transfer1 rfl)
  have h8 := Reachable.step h7 (Step.release1 rfl)
  exact h8

/-- Witness for seek_transfer_atomic at the concrete reachable state
concW, where call 0 used view offset 5 and call 1 view offset 7: the
recorded transfer positions are 40 and 42. -/
theorem seek_transfer_atomic_witness :
    concW.obs0 = some 40 ∧ 40 = 5 + FILE_HEADER.length ∧
    concW.obs1 = some 42 ∧ 42 = 7 + FILE_HEADER.length :=
  ⟨rfl, (seek_transfer_atomic 5 7 concW concW_reachable).1 40 rfl,
    rfl, (seek_transfer_atomic 5 7 concW concW_reachable).2 42 rfl⟩
